import Mathlib

/-!
Shallow embedding of the coliving financial-projection engine
(`app_coliving_simulation_full_wconfig.py` and `coliving_simul.py`).

Machine floats are modelled as exact rationals `ℚ`; Python dicts are
modelled as association lists (`List (String × _)`) with `List.lookup`,
which matches Python's insertion-ordered dict iteration and `dict.get`.
-/

namespace Coliving

/-- `RoomType` dataclass: a named room category with a room count. -/
structure RoomType where
  name : String
  count : ℤ
deriving DecidableEq

/-- `SeasonPricing` dataclass: prices per tenor plus the stay-mix shares. -/
structure SeasonPricing where
  price_per_night : ℚ
  price_per_week : ℚ
  price_per_month : ℚ
  share_nightly : ℚ
  share_weekly : ℚ
  share_monthly : ℚ
deriving DecidableEq

/-- `SeasonPricing.equivalent_nightly_rate`: blended nightly price.
Python's `x / 7.0 if x else 0.0` truthiness test is the test `x ≠ 0`. -/
def SeasonPricing.equivalent_nightly_rate (sp : SeasonPricing) : ℚ :=
  let total_share := sp.share_nightly + sp.share_weekly + sp.share_monthly
  if total_share ≤ 0 then 0
  else
    let sn := sp.share_nightly / total_share
    let sw := sp.share_weekly / total_share
    let sm := sp.share_monthly / total_share
    let nightly_part := sn * sp.price_per_night
    let weekly_part := sw * (if sp.price_per_week ≠ 0 then sp.price_per_week / 7 else 0)
    let monthly_part := sm * (if sp.price_per_month ≠ 0 then sp.price_per_month / 30 else 0)
    nightly_part + weekly_part + monthly_part

/-- The spec's description of the blended rate: the weighted sum
`share_nightly * price_per_night + share_weekly * (price_per_week / 7) +
share_monthly * (price_per_month / 30)` divided by the share total,
and `0` when the share total is not positive. -/
def equivalentNightlyRateSpec (sp : SeasonPricing) : ℚ :=
  let total := sp.share_nightly + sp.share_weekly + sp.share_monthly
  if total ≤ 0 then 0
  else
    (sp.share_nightly * sp.price_per_night
      + sp.share_weekly * (sp.price_per_week / 7)
      + sp.share_monthly * (sp.price_per_month / 30)) / total

/-- Closed form of the blended rate when the share total is positive. -/
lemma equivalent_nightly_rate_of_pos (sp : SeasonPricing)
    (h : 0 < sp.share_nightly + sp.share_weekly + sp.share_monthly) :
    sp.equivalent_nightly_rate =
      (sp.share_nightly * sp.price_per_night
        + sp.share_weekly * (sp.price_per_week / 7)
        + sp.share_monthly * (sp.price_per_month / 30))
      / (sp.share_nightly + sp.share_weekly + sp.share_monthly) := by
  have hne : sp.share_nightly + sp.share_weekly + sp.share_monthly ≠ 0 := ne_of_gt h
  unfold SeasonPricing.equivalent_nightly_rate
  rw [if_neg (not_le.mpr h)]
  by_cases hw : sp.price_per_week = 0 <;> by_cases hm : sp.price_per_month = 0 <;>
    simp only [hw, hm, ne_eq, not_true_eq_false, not_false_eq_true, if_true, if_false,
      ite_true, ite_false] <;>
    field_simp <;> ring

/-- C1: for every `SeasonPricing`, `equivalent_nightly_rate` returns 0 when
`share_nightly + share_weekly + share_monthly ≤ 0`, and otherwise returns the
weighted sum `share_nightly * price_per_night + share_weekly * (price_per_week / 7)
+ share_monthly * (price_per_month / 30)` divided by the share total; a zero
weekly or monthly tenor price contributes 0 while its normalized weight is
still applied. -/
theorem equivalent_nightly_rate_eq_spec (sp : SeasonPricing) :
    sp.equivalent_nightly_rate = equivalentNightlyRateSpec sp := by
  unfold equivalentNightlyRateSpec
  by_cases h : sp.share_nightly + sp.share_weekly + sp.share_monthly ≤ 0
  · rw [if_pos h]
    unfold SeasonPricing.equivalent_nightly_rate
    rw [if_pos h]
  · rw [if_neg h]
    exact equivalent_nightly_rate_of_pos sp (not_le.mp h)

/-- C6: for every `SeasonPricing` whose shares sum to a positive value, the
blended rate is invariant under multiplying all three shares by the same
positive constant, the prices being held fixed. -/
theorem equivalent_nightly_rate_scale_shares (sp : SeasonPricing) (c : ℚ)
    (hc : 0 < c)
    (h : 0 < sp.share_nightly + sp.share_weekly + sp.share_monthly) :
    ({ sp with
        share_nightly := c * sp.share_nightly
        share_weekly := c * sp.share_weekly
        share_monthly := c * sp.share_monthly } : SeasonPricing).equivalent_nightly_rate
      = sp.equivalent_nightly_rate := by
  have h' : 0 < c * sp.share_nightly + c * sp.share_weekly + c * sp.share_monthly := by
    have : c * sp.share_nightly + c * sp.share_weekly + c * sp.share_monthly
        = c * (sp.share_nightly + sp.share_weekly + sp.share_monthly) := by ring
    rw [this]
    exact mul_pos hc h
  rw [equivalent_nightly_rate_of_pos _ h', equivalent_nightly_rate_of_pos _ h]
  have hne : sp.share_nightly + sp.share_weekly + sp.share_monthly ≠ 0 := ne_of_gt h
  have hcne : c ≠ 0 := ne_of_gt hc
  field_simp
  ring

/-- Witness for C6 at a concrete pricing and constant. -/
theorem equivalent_nightly_rate_scale_shares_witness :
    ({ price_per_night := (150 : ℚ), price_per_week := 950, price_per_month := 0,
       share_nightly := 2 * (1/2 : ℚ), share_weekly := 2 * (1/4 : ℚ),
       share_monthly := 2 * (1/4 : ℚ) } : SeasonPricing).equivalent_nightly_rate
      = ({ price_per_night := (150 : ℚ), price_per_week := 950, price_per_month := 0,
           share_nightly := (1/2 : ℚ), share_weekly := (1/4 : ℚ),
           share_monthly := (1/4 : ℚ) } : SeasonPricing).equivalent_nightly_rate :=
  equivalent_nightly_rate_scale_shares
    { price_per_night := (150 : ℚ), price_per_week := 950, price_per_month := 0,
      share_nightly := (1/2 : ℚ), share_weekly := (1/4 : ℚ), share_monthly := (1/4 : ℚ) }
    2 (by norm_num) (by norm_num)

/-- A row of the amortization schedule, as the dict appended by
`build_amortization_schedule`. -/
structure AmortRow where
  year : ℕ
  payment : ℚ
  interest : ℚ
  principal : ℚ
  remaining : ℚ
deriving DecidableEq

/-- The constant annual payment computed by `build_amortization_schedule`:
`debt / n` when the rate is 0, else `debt * (r / (1 - (1+r) ^ (-n)))`. -/
def annualPayment (debt_amount r : ℚ) (n : ℕ) : ℚ :=
  if r = 0 then debt_amount / n
  else debt_amount * (r / (1 - (1 + r) ^ (-(n : ℤ))))

/-- The `for year in range(1, n+1)` loop of `build_amortization_schedule`:
`k` iterations remain, `year` is the next year label, `remaining` the
current balance. -/
def amortGo (payment r : ℚ) : ℕ → ℕ → ℚ → List AmortRow
  | 0, _, _ => []
  | k + 1, year, remaining =>
    let interest := remaining * r
    let principal := payment - interest
    let remaining2 := max 0 (remaining - principal)
    ⟨year, payment, interest, principal, remaining2⟩ :: amortGo payment r k (year + 1) remaining2

/-- `build_amortization_schedule(debt_amount, annual_rate, years)`. -/
def build_amortization_schedule (debt_amount annual_rate : ℚ) (years : ℤ) : List AmortRow :=
  if debt_amount ≤ 0 ∨ annual_rate < 0 ∨ years ≤ 0 then []
  else amortGo (annualPayment debt_amount annual_rate years.toNat) annual_rate years.toNat
    1 debt_amount

/-- The balance sequence driven by the loop: `remSeq debt p r k` is the
`remaining` value after `k` iterations. -/
def remSeq (debt payment r : ℚ) : ℕ → ℚ
  | 0 => debt
  | k + 1 => max 0 ((1 + r) * remSeq debt payment r k - payment)

lemma amortGo_length (payment r : ℚ) :
    ∀ (k year : ℕ) (rem : ℚ), (amortGo payment r k year rem).length = k := by
  intro k
  induction k with
  | zero => intro year rem; rfl
  | succ k ih => intro year rem; simp [amortGo, ih]

lemma amortGo_map_year (payment r : ℚ) :
    ∀ (k year : ℕ) (rem : ℚ),
      (amortGo payment r k year rem).map (·.year) = List.range' year k := by
  intro k
  induction k with
  | zero => intro year rem; rfl
  | succ k ih => intro year rem; simp [amortGo, ih, List.range'_succ]

lemma amortGo_remaining_nonneg (payment r : ℚ) :
    ∀ (k year : ℕ) (rem : ℚ), ∀ row ∈ amortGo payment r k year rem, 0 ≤ row.remaining := by
  intro k
  induction k with
  | zero => intro year rem row hrow; simp [amortGo] at hrow
  | succ k ih =>
    intro year rem row hrow
    simp only [amortGo, List.mem_cons] at hrow
    rcases hrow with hrow | hrow
    · rw [hrow]; exact le_max_left 0 _
    · exact ih (year + 1) _ row hrow

/-- Invariant of the loop: when the rate is non-negative, the balance is
non-negative, bounded by the incoming balance, and forms a non-increasing
chain, as long as the incoming balance satisfies `rem * r ≤ payment`. -/
lemma amortGo_remaining_antitone (payment r : ℚ) (hr : 0 ≤ r) :
    ∀ (k year : ℕ) (rem : ℚ), 0 ≤ rem → rem * r ≤ payment →
      (∀ row ∈ amortGo payment r k year rem, row.remaining ≤ rem) ∧
      List.Chain' (fun a b => b.remaining ≤ a.remaining) (amortGo payment r k year rem) := by
  intro k
  induction k with
  | zero => intro year rem _ _; exact ⟨fun row hrow => by simp [amortGo] at hrow, by simp [amortGo]⟩
  | succ k ih =>
    intro year rem hrem hbound
    have hle : max 0 (rem - (payment - rem * r)) ≤ rem := by
      apply max_le hrem
      linarith
    have hnn : 0 ≤ max 0 (rem - (payment - rem * r)) := le_max_left 0 _
    have hbound' : max 0 (rem - (payment - rem * r)) * r ≤ payment :=
      le_trans (by exact mul_le_mul_of_nonneg_right hle hr) hbound
    obtain ⟨ihall, ihchain⟩ := ih (year + 1) _ hnn hbound'
    constructor
    · intro row hrow
      simp only [amortGo, List.mem_cons] at hrow
      rcases hrow with hrow | hrow
      · rw [hrow]; exact hle
      · exact le_trans (ihall row hrow) hle
    · show List.Chain' _
        (⟨year, payment, rem * r, payment - rem * r, max 0 (rem - (payment - rem * r))⟩ ::
          amortGo payment r k (year + 1) (max 0 (rem - (payment - rem * r))))
      rw [List.chain'_cons']
      refine ⟨fun b hb => ?_, ihchain⟩
      exact ihall b (List.mem_of_mem_head? hb)

lemma annualPayment_eq_pos (debt r : ℚ) (n : ℕ) (hr : 0 < r) (hn : 0 < n) :
    annualPayment debt r n = debt * r * (1 + r) ^ n / ((1 + r) ^ n - 1) := by
  have hrne : r ≠ 0 := ne_of_gt hr
  have hA : (1 : ℚ) < (1 + r) ^ n := one_lt_pow₀ (by linarith) (by omega)
  have hAne : ((1 : ℚ) + r) ^ n ≠ 0 := by positivity
  have hDne : ((1 : ℚ) + r) ^ n - 1 ≠ 0 := ne_of_gt (by linarith)
  unfold annualPayment
  rw [if_neg hrne, zpow_neg, zpow_natCast]
  field_simp
  ring

lemma debt_mul_rate_le_payment (debt r : ℚ) (n : ℕ) (hd : 0 < debt) (hr : 0 ≤ r)
    (hn : 0 < n) : debt * r ≤ annualPayment debt r n := by
  rcases eq_or_lt_of_le hr with h0 | hpos
  · rw [← h0, mul_zero]
    unfold annualPayment
    rw [if_pos rfl]
    positivity
  · rw [annualPayment_eq_pos debt r n hpos hn]
    have hA : (1 : ℚ) < (1 + r) ^ n := one_lt_pow₀ (by linarith) (by omega)
    have h1 : (1 : ℚ) ≤ (1 + r) ^ n / ((1 + r) ^ n - 1) :=
      (one_le_div (by linarith)).mpr (by linarith)
    calc debt * r = debt * r * 1 := by ring
      _ ≤ debt * r * ((1 + r) ^ n / ((1 + r) ^ n - 1)) :=
          mul_le_mul_of_nonneg_left h1 (by positivity)
      _ = debt * r * (1 + r) ^ n / ((1 + r) ^ n - 1) := by ring

lemma remSeq_closed_pos (debt r : ℚ) (n : ℕ) (hd : 0 < debt) (hr : 0 < r) (hn : 0 < n) :
    ∀ k, k ≤ n →
      remSeq debt (debt * r * (1 + r) ^ n / ((1 + r) ^ n - 1)) r k
        = debt * ((1 + r) ^ n - (1 + r) ^ k) / ((1 + r) ^ n - 1) := by
  have hA : (1 : ℚ) < (1 + r) ^ n := one_lt_pow₀ (by linarith) (by omega)
  have hD : (0 : ℚ) < (1 + r) ^ n - 1 := by linarith
  have hDne : ((1 : ℚ) + r) ^ n - 1 ≠ 0 := ne_of_gt hD
  intro k
  induction k with
  | zero =>
    intro _
    simp only [remSeq, pow_zero]
    field_simp
  | succ k ih =>
    intro hk
    have hk' : k ≤ n := Nat.le_of_succ_le hk
    simp only [remSeq]
    rw [ih hk']
    have key : (1 + r) * (debt * ((1 + r) ^ n - (1 + r) ^ k) / ((1 + r) ^ n - 1))
        - debt * r * (1 + r) ^ n / ((1 + r) ^ n - 1)
        = debt * ((1 + r) ^ n - (1 + r) ^ (k + 1)) / ((1 + r) ^ n - 1) := by
      field_simp
      ring
    rw [key]
    apply max_eq_right
    have hpow : (1 + r) ^ (k + 1) ≤ (1 + r) ^ n := pow_le_pow_right₀ (by linarith) hk
    apply div_nonneg (mul_nonneg hd.le (by linarith)) hD.le

lemma remSeq_closed_zero (debt : ℚ) (n : ℕ) (hd : 0 < debt) (hn : 0 < n) :
    ∀ k, k ≤ n → remSeq debt (debt / n) 0 k = debt * ((n : ℚ) - k) / n := by
  have hn0 : ((n : ℚ)) ≠ 0 := Nat.cast_ne_zero.mpr (by omega)
  intro k
  induction k with
  | zero =>
    intro _
    simp only [remSeq, Nat.cast_zero, sub_zero]
    field_simp
  | succ k ih =>
    intro hk
    have hk' : k ≤ n := Nat.le_of_succ_le hk
    simp only [remSeq]
    rw [ih hk']
    have key : (1 + 0) * (debt * ((n : ℚ) - k) / n) - debt / n
        = debt * ((n : ℚ) - (k + 1 : ℕ)) / n := by
      push_cast
      field_simp
      ring
    rw [key]
    apply max_eq_right
    apply div_nonneg (mul_nonneg hd.le ?_) (Nat.cast_nonneg n)
    have hcast : ((k : ℚ) + 1) ≤ (n : ℚ) := by exact_mod_cast hk
    push_cast
    linarith

/-- In exact arithmetic, the loop's balance sequence never hits the
`max 0` floor before year `n` and reaches exactly 0 at year `n`. -/
lemma remSeq_spec (debt r : ℚ) (n : ℕ) (hd : 0 < debt) (hr : 0 ≤ r) (hn : 0 < n) :
    (∀ i, i < n →
      remSeq debt (annualPayment debt r n) r (i + 1)
        = (1 + r) * remSeq debt (annualPayment debt r n) r i - annualPayment debt r n) ∧
    remSeq debt (annualPayment debt r n) r n = 0 := by
  rcases eq_or_lt_of_le hr with h0 | hpos
  · have hP : annualPayment debt r n = debt / n := by
      unfold annualPayment
      rw [if_pos (by rw [← h0])]
    have hn0 : ((n : ℚ)) ≠ 0 := Nat.cast_ne_zero.mpr (by omega)
    rw [hP, ← h0]
    constructor
    · intro i hi
      rw [remSeq_closed_zero debt n hd hn (i + 1) (by omega),
        remSeq_closed_zero debt n hd hn i (by omega)]
      push_cast
      field_simp
      ring
    · rw [remSeq_closed_zero debt n hd hn n le_rfl]
      simp
  · have hA : (1 : ℚ) < (1 + r) ^ n := one_lt_pow₀ (by linarith) (by omega)
    have hDne : ((1 : ℚ) + r) ^ n - 1 ≠ 0 := ne_of_gt (by linarith)
    rw [annualPayment_eq_pos debt r n hpos hn]
    constructor
    · intro i hi
      rw [remSeq_closed_pos debt r n hd hpos hn (i + 1) (by omega),
        remSeq_closed_pos debt r n hd hpos hn i (by omega)]
      field_simp
      ring
    · rw [remSeq_closed_pos debt r n hd hpos hn n le_rfl]
      simp

/-- Characterization of the loop: starting from the `j`-th balance, the rows
produced are exactly the balance-sequence values. -/
lemma amortGo_eq_map (payment r debt : ℚ) :
    ∀ (k j year : ℕ),
      amortGo payment r k year (remSeq debt payment r j) =
        (List.range k).map (fun i =>
          ({ year := year + i
             payment := payment
             interest := remSeq debt payment r (j + i) * r
             principal := payment - remSeq debt payment r (j + i) * r
             remaining := remSeq debt payment r (j + i + 1) } : AmortRow)) := by
  intro k
  induction k with
  | zero => intro j year; rfl
  | succ k ih =>
    intro j year
    have hstep : max 0 (remSeq debt payment r j - (payment - remSeq debt payment r j * r))
        = remSeq debt payment r (j + 1) := by
      simp only [remSeq]
      congr 1
      ring
    show (⟨year, payment, remSeq debt payment r j * r,
        payment - remSeq debt payment r j * r,
        max 0 (remSeq debt payment r j - (payment - remSeq debt payment r j * r))⟩ : AmortRow)
        :: amortGo payment r k (year + 1)
            (max 0 (remSeq debt payment r j - (payment - remSeq debt payment r j * r)))
      = _
    rw [hstep, ih (j + 1) (year + 1), List.range_succ_eq_map, List.map_cons, List.map_map]
    congr 1
    refine List.map_congr_left fun i _ => ?_
    simp only [Function.comp_apply, Nat.succ_eq_add_one]
    rw [show year + 1 + i = year + (i + 1) from by omega,
      show j + 1 + i = j + (i + 1) from by omega]

lemma sum_map_range_sub (g : ℕ → ℚ) :
    ∀ n, ((List.range n).map (fun i => g i - g (i + 1))).sum = g 0 - g n := by
  intro n
  induction n with
  | zero => simp
  | succ n ih =>
    rw [List.range_succ, List.map_append, List.sum_append, ih]
    simp

lemma amortGo_sum_principal (payment r debt : ℚ) (n : ℕ)
    (hstep : ∀ i, i < n →
      remSeq debt payment r (i + 1) = (1 + r) * remSeq debt payment r i - payment) :
    ((amortGo payment r n 1 debt).map (·.principal)).sum
      = debt - remSeq debt payment r n := by
  rw [show amortGo payment r n 1 debt = amortGo payment r n 1 (remSeq debt payment r 0)
      from rfl,
    amortGo_eq_map payment r debt n 0 1, List.map_map]
  have hcongr : (List.range n).map ((fun row : AmortRow => row.principal) ∘ fun i =>
      ({ year := 1 + i, payment := payment,
         interest := remSeq debt payment r (0 + i) * r,
         principal := payment - remSeq debt payment r (0 + i) * r,
         remaining := remSeq debt payment r (0 + i + 1) } : AmortRow))
      = (List.range n).map (fun i => remSeq debt payment r i - remSeq debt payment r (i + 1)) := by
    refine List.map_congr_left fun i hi => ?_
    rw [List.mem_range] at hi
    simp only [Function.comp, Nat.zero_add]
    rw [hstep i hi]
    ring
  rw [hcongr, sum_map_range_sub]
  simp only [remSeq]

lemma amortGo_last_remaining (payment r debt : ℚ) (n : ℕ) (hn : 0 < n) :
    ((amortGo payment r n 1 debt).map (·.remaining)).getLast?
      = some (remSeq debt payment r n) := by
  rw [show amortGo payment r n 1 debt = amortGo payment r n 1 (remSeq debt payment r 0)
      from rfl,
    amortGo_eq_map payment r debt n 0 1, List.map_map]
  obtain ⟨m, rfl⟩ : ∃ m, n = m + 1 := ⟨n - 1, by omega⟩
  rw [List.range_succ, List.map_append]
  simp [List.getLast?_concat, Function.comp]

/-- C2: for every `debt_amount > 0`, `annual_rate ≥ 0` and positive integer
`years`, the schedule built by `build_amortization_schedule` fully repays the
loan in exact arithmetic: the principal fields sum to `debt_amount` and the
final row's remaining balance is 0. -/
theorem amortization_fully_repays (debt r : ℚ) (years : ℤ)
    (hd : 0 < debt) (hr : 0 ≤ r) (hy : 0 < years) :
    ((build_amortization_schedule debt r years).map (·.principal)).sum = debt ∧
    ((build_amortization_schedule debt r years).map (·.remaining)).getLast? = some 0 := by
  have hguard : ¬(debt ≤ 0 ∨ r < 0 ∨ years ≤ 0) := by
    push_neg
    exact ⟨hd, hr, hy⟩
  have hnpos : 0 < years.toNat := by omega
  obtain ⟨hstep, hfinal⟩ := remSeq_spec debt r years.toNat hd hr hnpos
  have hbuild : build_amortization_schedule debt r years
      = amortGo (annualPayment debt r years.toNat) r years.toNat 1 debt := by
    unfold build_amortization_schedule
    rw [if_neg hguard]
  constructor
  · rw [hbuild, amortGo_sum_principal _ _ _ _ hstep, hfinal, sub_zero]
  · rw [hbuild, amortGo_last_remaining _ _ _ _ hnpos, hfinal]

/-- Witness for C2 at `debt = 1`, `rate = 0`, `years = 2`. -/
theorem amortization_fully_repays_witness :
    ((build_amortization_schedule 1 0 2).map (·.principal)).sum = 1 ∧
    ((build_amortization_schedule 1 0 2).map (·.remaining)).getLast? = some 0 :=
  amortization_fully_repays 1 0 2 (by norm_num) le_rfl (by norm_num)

/-- C5: for every `debt_amount > 0`, `annual_rate ≥ 0` and positive integer
`years`, the remaining-balance fields of the schedule are monotonically
non-increasing and every row's remaining balance is non-negative. -/
theorem remaining_balance_monotone (debt r : ℚ) (years : ℤ)
    (hd : 0 < debt) (hr : 0 ≤ r) (hy : 0 < years) :
    List.Chain' (fun a b => b.remaining ≤ a.remaining)
      (build_amortization_schedule debt r years) ∧
    ∀ row ∈ build_amortization_schedule debt r years, 0 ≤ row.remaining := by
  have hguard : ¬(debt ≤ 0 ∨ r < 0 ∨ years ≤ 0) := by
    push_neg
    exact ⟨hd, hr, hy⟩
  have hnpos : 0 < years.toNat := by omega
  have hbuild : build_amortization_schedule debt r years
      = amortGo (annualPayment debt r years.toNat) r years.toNat 1 debt := by
    unfold build_amortization_schedule
    rw [if_neg hguard]
  rw [hbuild]
  constructor
  · exact (amortGo_remaining_antitone _ r hr years.toNat 1 debt hd.le
      (debt_mul_rate_le_payment debt r years.toNat hd hr hnpos)).2
  · exact amortGo_remaining_nonneg _ r years.toNat 1 debt

/-- Witness for C5 at `debt = 1`, `rate = 0`, `years = 2`. -/
theorem remaining_balance_monotone_witness :
    List.Chain' (fun a b => b.remaining ≤ a.remaining)
      (build_amortization_schedule 1 0 2) ∧
    ∀ row ∈ build_amortization_schedule 1 0 2, 0 ≤ row.remaining :=
  remaining_balance_monotone 1 0 2 (by norm_num) le_rfl (by norm_num)

/-- C7: `build_amortization_schedule` returns an empty schedule exactly when
`debt_amount ≤ 0`, `annual_rate < 0` or `years ≤ 0`; for all other inputs the
schedule has exactly `years` rows, numbered 1 through `years`. -/
theorem schedule_empty_iff_and_length (debt r : ℚ) (years : ℤ) :
    (build_amortization_schedule debt r years = [] ↔
      debt ≤ 0 ∨ r < 0 ∨ years ≤ 0) ∧
    (0 < debt → 0 ≤ r → 0 < years →
      (build_amortization_schedule debt r years).length = years.toNat ∧
      (build_amortization_schedule debt r years).map (·.year)
        = List.range' 1 years.toNat) := by
  constructor
  · constructor
    · intro hnil
      by_contra hguard
      have hbuild : build_amortization_schedule debt r years
          = amortGo (annualPayment debt r years.toNat) r years.toNat 1 debt := by
        unfold build_amortization_schedule
        rw [if_neg hguard]
      rw [hbuild] at hnil
      have hlen := amortGo_length (annualPayment debt r years.toNat) r years.toNat 1 debt
      rw [hnil] at hlen
      simp only [List.length_nil] at hlen
      push_neg at hguard
      omega
    · intro h
      unfold build_amortization_schedule
      rw [if_pos h]
  · intro hd hr hy
    have hguard : ¬(debt ≤ 0 ∨ r < 0 ∨ years ≤ 0) := by
      push_neg
      exact ⟨hd, hr, hy⟩
    have hbuild : build_amortization_schedule debt r years
        = amortGo (annualPayment debt r years.toNat) r years.toNat 1 debt := by
      unfold build_amortization_schedule
      rw [if_neg hguard]
    rw [hbuild]
    exact ⟨amortGo_length _ r years.toNat 1 debt, amortGo_map_year _ r years.toNat 1 debt⟩

/-- Witness for C7 at `debt = 1`, `rate = 0`, `years = 2`. -/
theorem schedule_empty_iff_and_length_witness :
    (build_amortization_schedule 1 0 2 = [] ↔
      (1 : ℚ) ≤ 0 ∨ (0 : ℚ) < 0 ∨ (2 : ℤ) ≤ 0) ∧
    ((build_amortization_schedule 1 0 2).length = (2 : ℤ).toNat ∧
      (build_amortization_schedule 1 0 2).map (·.year) = List.range' 1 (2 : ℤ).toNat) :=
  ⟨(schedule_empty_iff_and_length 1 0 2).1,
    (schedule_empty_iff_and_length 1 0 2).2 (by norm_num) le_rfl (by norm_num)⟩

/-- `Season` dataclass: name, day count, and the per-room-type occupancy and
pricing dicts. -/
structure Season where
  name : String
  days : ℤ
  occupancy : List (String × ℚ)
  pricing : List (String × SeasonPricing)

/-- The per-room-type dict built by `simulate_annual_revenue` for one season. -/
structure RoomBreakdown where
  equivalent_nightly_rate : ℚ
  occupancy_rate : ℚ
  total_room_nights : ℚ
  occupied_nights : ℚ
  revenue : ℚ
deriving DecidableEq

/-- The inner `for rt_name, room_type in room_types.items()` loop of
`simulate_annual_revenue`: room types without a pricing entry are skipped
(`continue`), a missing occupancy entry reads as `0.0` via `dict.get`. -/
def seasonRoomBreakdown (room_types : List (String × RoomType)) (season : Season) :
    List (String × RoomBreakdown) :=
  room_types.filterMap fun rt =>
    match season.pricing.lookup rt.1 with
    | none => none
    | some pricing =>
      let occ_rate := (season.occupancy.lookup rt.1).getD 0
      let rate := pricing.equivalent_nightly_rate
      let total_room_nights : ℚ := ((rt.2.count * season.days : ℤ) : ℚ)
      let occupied_nights := total_room_nights * occ_rate
      let revenue := occupied_nights * rate
      some (rt.1, ⟨rate, occ_rate, total_room_nights, occupied_nights, revenue⟩)

/-- One season's entry of the `per_season` output dict. -/
structure SeasonResult where
  revenue : ℚ
  by_room_type : List (String × RoomBreakdown)

/-- `simulate_annual_revenue` output: per-season results plus total revenue. -/
structure SimulationResults where
  per_season : List (String × SeasonResult)
  total_revenue : ℚ

/-- `simulate_annual_revenue(room_types, seasons)`. The accumulated
`season_revenue` is exactly the sum of the revenues appended to the season's
breakdown, and `total_revenue` the sum of the season revenues. -/
def simulate_annual_revenue (room_types : List (String × RoomType))
    (seasons : List Season) : SimulationResults :=
  let per := seasons.map fun season =>
    let bd := seasonRoomBreakdown room_types season
    (season.name, SeasonResult.mk ((bd.map (·.2.revenue)).sum) bd)
  ⟨per, (per.map (·.2.revenue)).sum⟩

/-- The per-season base configuration assembled by `main` before scenario
scaling: days, base occupancy dict, base pricing dict. -/
structure SeasonBaseConfig where
  days : ℤ
  occupancy_base : List (String × ℚ)
  pricing_base : List (String × SeasonPricing)

/-- The occupancy scaling of `main`: `occ_scen = min(1.0, occ_base * occ_factor)`. -/
def scaleOcc (occ_factor occ_base : ℚ) : ℚ := min 1 (occ_base * occ_factor)

/-- The pricing scaling of `main`: each tenor price is multiplied by
`price_factor`; the mix shares are copied unchanged. -/
def scalePricing (price_factor : ℚ) (pb : SeasonPricing) : SeasonPricing :=
  { price_per_night := pb.price_per_night * price_factor
    price_per_week := pb.price_per_week * price_factor
    price_per_month := pb.price_per_month * price_factor
    share_nightly := pb.share_nightly
    share_weekly := pb.share_weekly
    share_monthly := pb.share_monthly }

/-- The scenario-scaling step of `main`: every base occupancy is scaled by
`occ_factor` and capped with `min(1.0, ·)`; every tenor price is scaled by
`price_factor`. -/
def buildScenarioSeason (occ_factor price_factor : ℚ) (nm : String)
    (cfg : SeasonBaseConfig) : Season :=
  { name := nm
    days := cfg.days
    occupancy := cfg.occupancy_base.map fun p => (p.1, scaleOcc occ_factor p.2)
    pricing := cfg.pricing_base.map fun p => (p.1, scalePricing price_factor p.2) }

/-- Looking a key up in a value-mapped association list. -/
lemma lookup_map_value {α β : Type} (l : List (String × α)) (f : α → β) (k : String) :
    (l.map (fun p => (p.1, f p.2))).lookup k = (l.lookup k).map f := by
  induction l with
  | nil => simp
  | cons h t ih =>
    simp only [List.map_cons, List.lookup]
    split <;> simp [ih]

/-- C3: every scaled occupancy entry equals `min 1 (base * occ_factor)` and so
never exceeds 1, while every tenor price is scaled by `price_factor` with no
cap and the mix shares are unchanged. -/
theorem scenario_scaling_caps_occupancy (f g : ℚ) (nm : String) (cfg : SeasonBaseConfig) :
    (∀ rt occ, (buildScenarioSeason f g nm cfg).occupancy.lookup rt = some occ →
      (∃ b, cfg.occupancy_base.lookup rt = some b ∧ occ = min 1 (b * f)) ∧ occ ≤ 1) ∧
    (∀ rt pr, (buildScenarioSeason f g nm cfg).pricing.lookup rt = some pr →
      ∃ pb, cfg.pricing_base.lookup rt = some pb ∧
        pr.price_per_night = pb.price_per_night * g ∧
        pr.price_per_week = pb.price_per_week * g ∧
        pr.price_per_month = pb.price_per_month * g ∧
        pr.share_nightly = pb.share_nightly ∧
        pr.share_weekly = pb.share_weekly ∧
        pr.share_monthly = pb.share_monthly) := by
  constructor
  · intro rt occ hocc
    rw [show (buildScenarioSeason f g nm cfg).occupancy
        = cfg.occupancy_base.map (fun p => (p.1, scaleOcc f p.2)) from rfl,
      lookup_map_value] at hocc
    cases hb : cfg.occupancy_base.lookup rt with
    | none => rw [hb] at hocc; simp at hocc
    | some b =>
      rw [hb] at hocc
      simp only [Option.map_some', Option.some.injEq] at hocc
      refine ⟨⟨b, rfl, ?_⟩, ?_⟩
      · rw [← hocc]; rfl
      · rw [← hocc]
        exact min_le_left 1 _
  · intro rt pr hpr
    rw [show (buildScenarioSeason f g nm cfg).pricing
        = cfg.pricing_base.map (fun p => (p.1, scalePricing g p.2)) from rfl,
      lookup_map_value] at hpr
    cases hb : cfg.pricing_base.lookup rt with
    | none => rw [hb] at hpr; simp at hpr
    | some pb =>
      rw [hb] at hpr
      simp only [Option.map_some', Option.some.injEq] at hpr
      exact ⟨pb, rfl, by rw [← hpr]; rfl, by rw [← hpr]; rfl, by rw [← hpr]; rfl,
        by rw [← hpr]; rfl, by rw [← hpr]; rfl, by rw [← hpr]; rfl⟩

/-- Witness for C3: base occupancy 1 with factor 2 clamps to 1; the tenor
prices of a concrete base pricing are each multiplied by 3. -/
theorem scenario_scaling_caps_occupancy_witness :
    (min (1 : ℚ) (1 * 2) ≤ 1) ∧
    (∃ pb, ([("a", (⟨2, 3, 4, 5, 6, 7⟩ : SeasonPricing))]).lookup "a" = some pb ∧
      (2 : ℚ) * 3 = pb.price_per_night * 3 ∧
      (3 : ℚ) * 3 = pb.price_per_week * 3 ∧
      (4 : ℚ) * 3 = pb.price_per_month * 3 ∧
      (5 : ℚ) = pb.share_nightly ∧
      (6 : ℚ) = pb.share_weekly ∧
      (7 : ℚ) = pb.share_monthly) :=
  ⟨((scenario_scaling_caps_occupancy 2 3 "s"
      ⟨90, [("a", 1)], [("a", ⟨2, 3, 4, 5, 6, 7⟩)]⟩).1 "a" (min 1 (1 * 2)) rfl).2,
    (scenario_scaling_caps_occupancy 2 3 "s"
      ⟨90, [("a", 1)], [("a", ⟨2, 3, 4, 5, 6, 7⟩)]⟩).2 "a"
      ⟨2 * 3, 3 * 3, 4 * 3, 5, 6, 7⟩ rfl⟩

/-- C10: a room type present in the inventory and in a season's pricing dict
but absent from the season's occupancy dict is treated as occupancy 0 and
still appears in the breakdown with zero occupied nights and zero revenue;
a room type missing from the pricing dict is omitted entirely. -/
theorem missing_occupancy_defaults_zero (room_types : List (String × RoomType))
    (season : Season) (rt_name : String) (rty : RoomType) (pr : SeasonPricing)
    (hmem : (rt_name, rty) ∈ room_types)
    (hpr : season.pricing.lookup rt_name = some pr)
    (hocc : season.occupancy.lookup rt_name = none) :
    (∃ e, (rt_name, e) ∈ seasonRoomBreakdown room_types season ∧
      e.occupancy_rate = 0 ∧ e.occupied_nights = 0 ∧ e.revenue = 0) ∧
    ∀ (nm : String) (e : RoomBreakdown), season.pricing.lookup nm = none →
      (nm, e) ∉ seasonRoomBreakdown room_types season := by
  constructor
  · refine ⟨⟨pr.equivalent_nightly_rate, 0, ((rty.count * season.days : ℤ) : ℚ), 0, 0⟩,
      ?_, rfl, rfl, rfl⟩
    apply List.mem_filterMap.mpr
    refine ⟨(rt_name, rty), hmem, ?_⟩
    simp [seasonRoomBreakdown, hpr, hocc]
  · intro nm e hnone hmem'
    obtain ⟨a, hain, hfa⟩ := List.mem_filterMap.mp hmem'
    cases hq : season.pricing.lookup a.1 with
    | none =>
      simp only [hq] at hfa
      exact Option.noConfusion hfa
    | some q =>
      simp only [hq, Option.some.injEq, Prod.mk.injEq] at hfa
      obtain ⟨hk, -⟩ := hfa
      rw [hk] at hq
      rw [hq] at hnone
      simp at hnone

/-- Witness for C10: room type `"a"` has a pricing entry but no occupancy
entry in the season, and its breakdown entry has zero occupancy and revenue. -/
theorem missing_occupancy_defaults_zero_witness :
    (∃ e, ("a", e) ∈ seasonRoomBreakdown [("a", ⟨"a", 2⟩)]
        ⟨"s", 10, [], [("a", ⟨1, 1, 1, 1, 1, 1⟩)]⟩ ∧
      e.occupancy_rate = 0 ∧ e.occupied_nights = 0 ∧ e.revenue = 0) ∧
    ∀ (nm : String) (e : RoomBreakdown),
      (⟨"s", 10, [], [("a", ⟨1, 1, 1, 1, 1, 1⟩)]⟩ : Season).pricing.lookup nm = none →
      (nm, e) ∉ seasonRoomBreakdown [("a", ⟨"a", 2⟩)]
        ⟨"s", 10, [], [("a", ⟨1, 1, 1, 1, 1, 1⟩)]⟩ :=
  missing_occupancy_defaults_zero [("a", ⟨"a", 2⟩)]
    ⟨"s", 10, [], [("a", ⟨1, 1, 1, 1, 1, 1⟩)]⟩ "a" ⟨"a", 2⟩ ⟨1, 1, 1, 1, 1, 1⟩
    (by simp) rfl rfl

/-- The net present value `sum(cf / (1 + mid) ** t for t, cf in enumerate(cashflows))`. -/
def npv (cashflows : List ℚ) (rate : ℚ) : ℚ :=
  (cashflows.enum.map fun tc => tc.2 / (1 + rate) ^ tc.1).sum

/-- The bisection loop of `compute_irr`: `fuel` iterations remain and the last
argument carries the most recently computed midpoint, which is returned when
the iteration cap is reached. -/
def irrLoop (cashflows : List ℚ) (tol : ℚ) : ℕ → ℚ → ℚ → ℚ → ℚ
  | 0, _, _, mid => mid
  | fuel + 1, low, high, _ =>
    if |npv cashflows ((low + high) / 2)| < tol then (low + high) / 2
    else if 0 < npv cashflows ((low + high) / 2) then
      irrLoop cashflows tol fuel ((low + high) / 2) high ((low + high) / 2)
    else
      irrLoop cashflows tol fuel low ((low + high) / 2) ((low + high) / 2)

/-- `compute_irr(cashflows, tol, max_iter)`: `None` when all cash flows share
one sign, else bisection on the bracket `[-0.9, 1.0]`. -/
def compute_irr (cashflows : List ℚ) (tol : ℚ) (max_iter : ℕ) : Option ℚ :=
  if (∀ cf ∈ cashflows, 0 ≤ cf) ∨ (∀ cf ∈ cashflows, cf ≤ 0) then none
  else some (irrLoop cashflows tol max_iter (-9/10) 1 ((-9/10 + 1) / 2))

/-- C4: `compute_irr` returns `None` exactly when all cash flows are `≥ 0` or
all are `≤ 0`; with a sign change it always returns a number. -/
theorem compute_irr_none_iff (cashflows : List ℚ) (tol : ℚ) (max_iter : ℕ) :
    compute_irr cashflows tol max_iter = none ↔
      (∀ cf ∈ cashflows, 0 ≤ cf) ∨ (∀ cf ∈ cashflows, cf ≤ 0) := by
  unfold compute_irr
  split <;> simp [*]

/-- The bisection loop never leaves the interval spanned by its bracket and
its carried midpoint. -/
lemma irrLoop_bounds (cashflows : List ℚ) (tol : ℚ) :
    ∀ (fuel : ℕ) (low high m : ℚ), -9/10 ≤ low → low ≤ high → high ≤ 1 →
      -9/10 ≤ m → m ≤ 1 →
      -9/10 ≤ irrLoop cashflows tol fuel low high m ∧
        irrLoop cashflows tol fuel low high m ≤ 1 := by
  intro fuel
  induction fuel with
  | zero => intro low high m _ _ _ hm1 hm2; exact ⟨hm1, hm2⟩
  | succ fuel ih =>
    intro low high m hl hlh hh _ _
    have hmid1 : -9/10 ≤ (low + high) / 2 := by linarith
    have hmid2 : (low + high) / 2 ≤ 1 := by linarith
    have hmidl : low ≤ (low + high) / 2 := by linarith
    have hmidh : (low + high) / 2 ≤ high := by linarith
    simp only [irrLoop]
    split
    · exact ⟨hmid1, hmid2⟩
    · split
      · exact ih _ _ _ hmid1 hmidh hh hmid1 hmid2
      · exact ih _ _ _ hl hmidl hmid2 hmid1 hmid2

/-- C9: whenever `compute_irr` returns a number, that number lies in the
closed interval `[-0.9, 1.0]` (the fixed bisection bracket). -/
theorem compute_irr_mem_bracket (cashflows : List ℚ) (tol : ℚ) (max_iter : ℕ) :
    (compute_irr cashflows tol max_iter).elim True
      (fun x => -9/10 ≤ x ∧ x ≤ 1) := by
  unfold compute_irr
  split
  · trivial
  · exact irrLoop_bounds cashflows tol max_iter (-9/10) 1 ((-9/10 + 1) / 2)
      le_rfl (by norm_num) le_rfl (by norm_num) (by norm_num)

/-- The inputs of the per-year projection loop of `main` that stay fixed
across years. -/
structure ProjectionParams where
  ebitda_year1 : ℚ
  growth_rate : ℚ
  annual_depreciation : ℚ
  tax_rate : ℚ
  horizon_years : ℕ
  exit_multiple : ℚ
  exit_cost_rate : ℚ

/-- The per-year debt figures read from the schedule by `main`:
`(interest, principal, remaining, payment)` of row `year - 1` when
`1 ≤ year ≤ len(schedule)`, else zero debt service with the final remaining
balance (or 0 for an empty schedule). -/
def yearDebtInfo (sched : List AmortRow) (year : ℕ) : ℚ × ℚ × ℚ × ℚ :=
  if h : 1 ≤ year ∧ year ≤ sched.length then
    ((sched.get ⟨year - 1, by omega⟩).interest,
     (sched.get ⟨year - 1, by omega⟩).principal,
     (sched.get ⟨year - 1, by omega⟩).remaining,
     (sched.get ⟨year - 1, by omega⟩).payment)
  else (0, 0, ((sched.getLast?).map (·.remaining)).getD 0, 0)

/-- One row of the per-year projection table assembled by `main`. -/
structure YearRow where
  year : ℕ
  ebitda : ℚ
  interest : ℚ
  principal : ℚ
  remaining_debt : ℚ
  debt_service : ℚ
  taxable : ℚ
  tax : ℚ
  net_income : ℚ
  cfads : ℚ
  fcfe : ℚ
  dscr : Option ℚ

/-- One iteration of the `for year in range(1, horizon_years + 1)` loop of
`main`: EBITDA growth, debt service from the shared schedule, tax on
`max(0, EBIT - interest)`, CFADS, FCFE with the exit proceeds in the final
year, and the DSCR which is `None` unless the debt service is positive. -/
def projectYear (p : ProjectionParams) (sched : List AmortRow) (year : ℕ) : YearRow :=
  let ebitda_t := p.ebitda_year1 * (1 + p.growth_rate) ^ (year - 1)
  let interest_t := (yearDebtInfo sched year).1
  let principal_t := (yearDebtInfo sched year).2.1
  let remaining_debt_t := (yearDebtInfo sched year).2.2.1
  let debt_service_t := (yearDebtInfo sched year).2.2.2
  let ebit_t := ebitda_t - p.annual_depreciation
  let taxable_t := max 0 (ebit_t - interest_t)
  let tax_t := taxable_t * p.tax_rate
  let net_income_t := ebit_t - interest_t - tax_t
  let cfads_t := ebitda_t - tax_t
  let fcfe0 := net_income_t + p.annual_depreciation - principal_t
  let fcfe_t :=
    if year = p.horizon_years then
      fcfe0 + (ebitda_t * p.exit_multiple
        - ebitda_t * p.exit_multiple * p.exit_cost_rate - remaining_debt_t)
    else fcfe0
  { year := year, ebitda := ebitda_t, interest := interest_t, principal := principal_t,
    remaining_debt := remaining_debt_t, debt_service := debt_service_t,
    taxable := taxable_t, tax := tax_t, net_income := net_income_t, cfads := cfads_t,
    fcfe := fcfe_t,
    dscr := if 0 < debt_service_t then some (cfads_t / debt_service_t) else none }

/-- The projection rows for years `1 .. horizon_years`. -/
def projectRows (p : ProjectionParams) (sched : List AmortRow) : List YearRow :=
  (List.range' 1 p.horizon_years).map (projectYear p sched)

/-- C8: in the scenario projection, a year's DSCR is `None` exactly when that
year's debt service is not strictly positive, and equals
`cfads / debt_service` when the debt service is strictly positive; `None` is
never replaced by zero. -/
theorem dscr_null_iff (p : ProjectionParams) (sched : List AmortRow) (row : YearRow)
    (hrow : row ∈ projectRows p sched) :
    (row.dscr = none ↔ row.debt_service ≤ 0) ∧
    row.dscr = if 0 < row.debt_service
      then some (row.cfads / row.debt_service) else none := by
  obtain ⟨y, hy, rfl⟩ := List.mem_map.mp hrow
  refine ⟨?_, rfl⟩
  have hd : (projectYear p sched y).dscr
      = if 0 < (projectYear p sched y).debt_service
        then some ((projectYear p sched y).cfads / (projectYear p sched y).debt_service)
        else none := rfl
  rw [hd]
  by_cases h : 0 < (projectYear p sched y).debt_service
  · rw [if_pos h]
    simp [not_le.mpr h]
  · rw [if_neg h]
    simp [not_lt.mp h]

/-- Witness for C8 at a trivial projection with an empty schedule: year 1 has
zero debt service and a null DSCR. -/
theorem dscr_null_iff_witness :
    ((projectYear ⟨0, 0, 0, 0, 1, 0, 0⟩ [] 1).dscr = none ↔
      (projectYear ⟨0, 0, 0, 0, 1, 0, 0⟩ [] 1).debt_service ≤ 0) ∧
    (projectYear ⟨0, 0, 0, 0, 1, 0, 0⟩ [] 1).dscr =
      if 0 < (projectYear ⟨0, 0, 0, 0, 1, 0, 0⟩ [] 1).debt_service
      then some ((projectYear ⟨0, 0, 0, 0, 1, 0, 0⟩ [] 1).cfads /
        (projectYear ⟨0, 0, 0, 0, 1, 0, 0⟩ [] 1).debt_service)
      else none :=
  dscr_null_iff ⟨0, 0, 0, 0, 1, 0, 0⟩ [] (projectYear ⟨0, 0, 0, 0, 1, 0, 0⟩ [] 1)
    (by simp [projectRows])

end Coliving
